import Mathlib

/-!
Shallow embedding of the allocation domain core of `src/src/domain/model.rs`
(the `Batch` / `OrderLine` entities, the per-batch `allocate` / `deallocate`
state transitions, and the cross-batch allocation policy `allocate`).

Modelling choices:
* `u32` quantities are modelled as `Nat`.  Along every state reachable from a
  freshly constructed batch the allocated sum stays `≤ qty`, so no `u32`
  subtraction underflows and no sum wraps; the one unchecked subtraction
  (`Batch::avaialble_qty`) is modelled by truncated `Nat` subtraction and its
  exactness under the invariant is proved separately.
* `DateTime<Local>` is modelled as an `Int` timestamp (`eta`); `Local::now()`
  becomes an explicit `now : Int` parameter of `Batch.new`.
* `Vec<&OrderLine>` with `PartialEq` element comparison is modelled as
  `List OrderLine` with structural equality (Rust compares the pointed-to
  values, so value equality is the faithful reading).
* `&mut self` methods returning `Result<(), &'static str>` are modelled in
  state-passing style: they return the `Except String Unit` result paired with
  the post-state, so that mutation (or its absence) is part of the definition.
* Rust's stable `sort_by(|a, b| a.eta.cmp(&b.eta))` is modelled by Mathlib's
  `List.insertionSort` on the `eta`-ordering, which computes the same (unique)
  stable sort.
-/

deriving instance DecidableEq for Except

namespace Cosmic

/-- `OrderLine` of `model.rs`: optional storage id, SKU, requested quantity.
Structural equality on all fields, as the Rust `derive(PartialEq, Eq)`. -/
structure OrderLine where
  id : Option Nat
  sku : String
  qty : Nat
deriving DecidableEq, Repr

/-- `OrderLine::new(sku, qty)`: id is `None`. -/
def OrderLine.new (sku : String) (qty : Nat) : OrderLine :=
  { id := none, sku := sku, qty := qty }

/-- `Batch` of `model.rs`: optional id, SKU, total quantity on order,
eta timestamp, and the list of allocated order lines (a `Vec` in the source,
so ordered and possibly duplicated a priori). -/
structure Batch where
  id : Option Nat
  sku : String
  qty : Nat
  eta : Int
  allocated : List OrderLine
deriving DecidableEq, Repr

/-- `Batch::new(sku, qty)`: id `None`, empty allocation list, and
`eta = Local::now()`; the ambient clock is the explicit parameter `now`. -/
def Batch.new (sku : String) (qty : Nat) (now : Int) : Batch :=
  { id := none, sku := sku, qty := qty, eta := now, allocated := [] }

/-- The sum of the quantities of the allocated order lines
(`self.allocated.iter().map(|line| line.qty).sum()`). -/
def Batch.allocatedQty (b : Batch) : Nat :=
  (b.allocated.map OrderLine.qty).sum

/-- `Batch::avaialble_qty` (source spelling): `self.qty - allocated_qty`, an
unchecked `u32` subtraction modelled by truncated `Nat` subtraction. -/
def Batch.avaialble_qty (b : Batch) : Nat :=
  b.qty - b.allocatedQty

/-- `Batch::allocate`, state-passing: checks SKU mismatch, then duplicate
allocation, then capacity, in source order; on success pushes the line onto
the allocation list.  Each `return Err(..)` of the source leaves the batch
untouched, which the returned post-state records. -/
def Batch.allocate (b : Batch) (ol : OrderLine) : Except String Unit × Batch :=
  if b.sku ≠ ol.sku then
    (Except.error "SKU do not match", b)
  else if ol ∈ b.allocated then
    (Except.error "Order line already allocated in this batch", b)
  else if b.avaialble_qty ≥ ol.qty then
    (Except.ok (), { b with allocated := b.allocated ++ [ol] })
  else
    (Except.error "Not enough quantity in batch to allocate order line", b)

/-- `Batch::deallocate`, state-passing: the source looks up the position of
the first value-equal line and removes it; `List.erase` removes exactly that
first occurrence. -/
def Batch.deallocate (b : Batch) (ol : OrderLine) : Except String Unit × Batch :=
  if ol ∈ b.allocated then
    (Except.ok (), { b with allocated := b.allocated.erase ol })
  else
    (Except.error "Cannot deallocate unallocated order", b)

/-- `batch.allocate(order_line).is_ok()`: whether the batch accepts the line. -/
def Batch.accepts (b : Batch) (ol : OrderLine) : Bool :=
  match (b.allocate ol).1 with
  | Except.ok _ => true
  | Except.error _ => false

/-- The comparator of the cross-batch policy: `a.eta.cmp(&b.eta)` ascending. -/
def etaLe (a b : Batch) : Prop := a.eta ≤ b.eta

instance : DecidableRel etaLe := fun a b => inferInstanceAs (Decidable (a.eta ≤ b.eta))

instance : IsTotal Batch etaLe := ⟨fun a b => Int.le_total a.eta b.eta⟩

instance : IsTrans Batch etaLe := ⟨fun _ _ _ hab hbc => le_trans hab hbc⟩

/-- `batches.sort_by(|a, b| a.eta.cmp(&b.eta))`: Rust's sort is stable, and a
stable sort by a total order is unique, so insertion sort computes it. -/
def sortByEta (l : List Batch) : List Batch :=
  List.insertionSort etaLe l

/-- `batches.iter_mut().any(|batch| batch.allocate(order_line).is_ok())`:
scan left to right, attempt `Batch.allocate` on each batch, stop at the first
success.  Returns the `any` result together with the post-state of the list. -/
def anyAllocate (ol : OrderLine) : List Batch → Bool × List Batch
  | [] => (false, [])
  | b :: bs =>
    match b.allocate ol with
    | (Except.ok _, b') => (true, b' :: bs)
    | (Except.error _, b') =>
      let r := anyAllocate ol bs
      (r.1, b' :: r.2)

/-- The cross-batch `allocate(order_line, batches)`: sorts the caller's vector
in place by ascending eta, then scans; `Ok(())` on the first accepting batch,
otherwise the error.  The returned list is the post-state of the caller's
vector. -/
def allocate (ol : OrderLine) (batches : List Batch) : Except String Unit × List Batch :=
  let sorted := sortByEta batches
  let r := anyAllocate ol sorted
  if r.1 then (Except.ok (), r.2)
  else (Except.error "Cannot allocate order line to any batch", r.2)

/-- An operation on a single batch: one `allocate` or `deallocate` call. -/
inductive BatchOp where
  | alloc (ol : OrderLine)
  | dealloc (ol : OrderLine)
deriving DecidableEq, Repr

/-- Apply one call to a batch; a failed call leaves the batch as the call
returned it (which, by atomicity, is unchanged). -/
def applyOp (b : Batch) : BatchOp → Batch
  | BatchOp.alloc ol => (b.allocate ol).2
  | BatchOp.dealloc ol => (b.deallocate ol).2

/-- Run a sequence of `allocate` / `deallocate` calls on a batch. -/
def runOps (b : Batch) (ops : List BatchOp) : Batch :=
  ops.foldl applyOp b

/-- The batch invariant: the allocated quantities sum to at most the total
quantity, and the allocated lines are pairwise distinct. -/
def Batch.inv (b : Batch) : Prop :=
  b.allocatedQty ≤ b.qty ∧ b.allocated.Nodup

/-- A concrete batch of quantity 5 holding one allocated line of quantity 2,
used as evaluation data for hypotheses about batches with allocations. -/
def sampleAllocatedBatch : Batch :=
  { id := none, sku := "A", qty := 5, eta := 0,
    allocated := [OrderLine.new "A" 2] }

/-- Concrete on-hand batch (earlier eta) for evaluating the cross-batch policy. -/
def sampleStock : Batch := Batch.new "SMALL_TABLE" 20 0

/-- Concrete in-transit batch (later eta) for evaluating the cross-batch policy. -/
def sampleShip : Batch := Batch.new "SMALL_TABLE" 20 1

/-- A concrete order line of quantity 10 for the two-batch scenario. -/
def sampleTableLine : OrderLine := OrderLine.new "SMALL_TABLE" 10

/-- The single candidate batch of quantity 1 of the no-batch-available scenario. -/
def sampleSmallBatch : Batch := Batch.new "SMALL_TABLE" 1 5

/-- The order line of quantity 2 that no candidate accepts. -/
def sampleBigLine : OrderLine := OrderLine.new "SMALL_TABLE" 2

/-- An order line whose SKU matches no sample batch. -/
def otherLine : OrderLine := OrderLine.new "OTHER" 1

/-- A persisted batch with identifier 1, for observing what the policy returns. -/
def batchIdOne : Batch :=
  { id := some 1, sku := "LAMP", qty := 10, eta := 0, allocated := [] }

/-- A persisted batch with identifier 2, for observing what the policy returns. -/
def batchIdTwo : Batch :=
  { id := some 2, sku := "LAMP", qty := 10, eta := 0, allocated := [] }

/-- A concrete order line both `batchIdOne` and `batchIdTwo` accept. -/
def lampLine : OrderLine := OrderLine.new "LAMP" 3

/-- A fresh concrete batch for running operation sequences. -/
def sampleBatchA : Batch := Batch.new "A" 5 0

/-- A concrete sequence of calls that mixes successes and every failure kind. -/
def sampleOps : List BatchOp :=
  [BatchOp.alloc (OrderLine.new "A" 2), BatchOp.alloc (OrderLine.new "A" 2),
    BatchOp.alloc (OrderLine.new "A" 3), BatchOp.dealloc (OrderLine.new "A" 2),
    BatchOp.alloc (OrderLine.new "B" 1), BatchOp.alloc (OrderLine.new "A" 9),
    BatchOp.dealloc (OrderLine.new "A" 7)]

end Cosmic

namespace Cosmic

/-! ### Case analysis of `Batch.allocate` and `Batch.deallocate` -/

theorem Batch.allocate_sku_mismatch {b : Batch} {ol : OrderLine}
    (h : b.sku ≠ ol.sku) :
    b.allocate ol = (Except.error "SKU do not match", b) := by
  simp [Batch.allocate, h]

theorem Batch.allocate_already {b : Batch} {ol : OrderLine}
    (h1 : b.sku = ol.sku) (h2 : ol ∈ b.allocated) :
    b.allocate ol = (Except.error "Order line already allocated in this batch", b) := by
  simp [Batch.allocate, h1, h2]

theorem Batch.allocate_insufficient {b : Batch} {ol : OrderLine}
    (h1 : b.sku = ol.sku) (h2 : ol ∉ b.allocated) (h3 : b.avaialble_qty < ol.qty) :
    b.allocate ol = (Except.error "Not enough quantity in batch to allocate order line", b) := by
  simp [Batch.allocate, h1, h2, h3, Nat.not_le.mpr h3]

theorem Batch.allocate_success {b : Batch} {ol : OrderLine}
    (h1 : b.sku = ol.sku) (h2 : ol ∉ b.allocated) (h3 : ol.qty ≤ b.avaialble_qty) :
    b.allocate ol = (Except.ok (), { b with allocated := b.allocated ++ [ol] }) := by
  simp [Batch.allocate, h1, h2, h3, ge_iff_le]

theorem Batch.allocate_error_snd {b : Batch} {ol : OrderLine} {msg : String}
    (h : (b.allocate ol).1 = Except.error msg) : (b.allocate ol).2 = b := by
  by_cases h1 : b.sku = ol.sku
  · by_cases h2 : ol ∈ b.allocated
    · rw [Batch.allocate_already h1 h2]
    · by_cases h3 : ol.qty ≤ b.avaialble_qty
      · rw [Batch.allocate_success h1 h2 h3] at h
        exact absurd h (by simp)
      · rw [Batch.allocate_insufficient h1 h2 (by omega)]
  · rw [Batch.allocate_sku_mismatch h1]

theorem Batch.accepts_true_iff {b : Batch} {ol : OrderLine} :
    b.accepts ol = true ↔
      b.sku = ol.sku ∧ ol ∉ b.allocated ∧ ol.qty ≤ b.avaialble_qty := by
  unfold Batch.accepts Batch.allocate
  split_ifs with h1 h2 h3 <;> simp_all

theorem Batch.accepts_ok {b : Batch} {ol : OrderLine} (h : b.accepts ol = true) :
    (b.allocate ol).1 = Except.ok () := by
  rcases hall : (b.allocate ol).1 with e | u
  · unfold Batch.accepts at h
    rw [hall] at h
    simp at h
  · rfl

theorem Batch.deallocate_mem {b : Batch} {ol : OrderLine} (h : ol ∈ b.allocated) :
    b.deallocate ol = (Except.ok (), { b with allocated := b.allocated.erase ol }) := by
  simp [Batch.deallocate, h]

theorem Batch.deallocate_not_mem {b : Batch} {ol : OrderLine} (h : ol ∉ b.allocated) :
    b.deallocate ol = (Except.error "Cannot deallocate unallocated order", b) := by
  simp [Batch.deallocate, h]

theorem Batch.deallocate_error_snd {b : Batch} {ol : OrderLine} {msg : String}
    (h : (b.deallocate ol).1 = Except.error msg) : (b.deallocate ol).2 = b := by
  by_cases hm : ol ∈ b.allocated
  · rw [Batch.deallocate_mem hm] at h
    exact absurd h (by simp)
  · rw [Batch.deallocate_not_mem hm]

/-! ### Arithmetic of a successful allocation -/

theorem Batch.allocatedQty_append {b : Batch} {ol : OrderLine} :
    (({ b with allocated := b.allocated ++ [ol] } : Batch)).allocatedQty
      = b.allocatedQty + ol.qty := by
  simp [Batch.allocatedQty]

theorem Batch.allocate_avail {b : Batch} {ol : OrderLine}
    (h1 : b.sku = ol.sku) (h2 : ol ∉ b.allocated) (h3 : ol.qty ≤ b.avaialble_qty) :
    ((b.allocate ol).2).avaialble_qty + ol.qty = b.avaialble_qty := by
  rw [Batch.allocate_success h1 h2 h3]
  unfold Batch.avaialble_qty at h3 ⊢
  dsimp only
  rw [Batch.allocatedQty_append]
  omega

/-! ### The left-to-right scan `anyAllocate` -/

theorem anyAllocate_cons_ok {b : Batch} {ol : OrderLine} {bs : List Batch}
    (h : b.accepts ol = true) :
    anyAllocate ol (b :: bs) = (true, (b.allocate ol).2 :: bs) := by
  rcases hall : b.allocate ol with ⟨r, b'⟩
  rcases r with e | u
  · unfold Batch.accepts at h
    rw [hall] at h
    simp at h
  · simp [anyAllocate, hall]

theorem anyAllocate_cons_fail {b : Batch} {ol : OrderLine} {bs : List Batch}
    (h : b.accepts ol = false) :
    anyAllocate ol (b :: bs) = ((anyAllocate ol bs).1, b :: (anyAllocate ol bs).2) := by
  rcases hall : b.allocate ol with ⟨r, b'⟩
  rcases r with e | u
  · have hb : b' = b := by
      have herr : (b.allocate ol).1 = Except.error e := by rw [hall]
      have hsnd := Batch.allocate_error_snd herr
      rw [hall] at hsnd
      exact hsnd
    simp [anyAllocate, hall, hb]
  · unfold Batch.accepts at h
    rw [hall] at h
    simp at h

theorem anyAllocate_all_fail {ol : OrderLine} {l : List Batch}
    (h : ∀ b ∈ l, b.accepts ol = false) :
    anyAllocate ol l = (false, l) := by
  induction l with
  | nil => rfl
  | cons b bs ih =>
    rw [anyAllocate_cons_fail (h b (by simp)),
      ih (fun c hc => h c (by simp [hc]))]

theorem anyAllocate_fst_false {ol : OrderLine} {l : List Batch}
    (h : (anyAllocate ol l).1 = false) :
    ∀ b ∈ l, b.accepts ol = false := by
  induction l with
  | nil => intro b hb; simp at hb
  | cons b bs ih =>
    intro c hc
    by_cases hb : b.accepts ol = true
    · rw [anyAllocate_cons_ok hb] at h
      simp at h
    · rw [anyAllocate_cons_fail (by simp_all)] at h
      rcases List.mem_cons.mp hc with hcb | hcbs
      · subst hcb; simp_all
      · exact ih h c hcbs

theorem anyAllocate_first_success {ol : OrderLine} {l : List Batch}
    (h : ∃ b ∈ l, b.accepts ol = true) :
    ∃ i, ∃ hi : i < l.length,
      (∀ j, ∀ hj : j < i, (l.get ⟨j, Nat.lt_trans hj hi⟩).accepts ol = false) ∧
      (l.get ⟨i, hi⟩).accepts ol = true ∧
      anyAllocate ol l = (true, l.set i ((l.get ⟨i, hi⟩).allocate ol).2) := by
  induction l with
  | nil => simp at h
  | cons b bs ih =>
    by_cases hb : b.accepts ol = true
    · refine ⟨0, by simp, ?_, ?_, ?_⟩
      · intro j hj
        exact absurd hj (by omega)
      · exact hb
      · rw [anyAllocate_cons_ok hb]
        rfl
    · have h' : ∃ c ∈ bs, c.accepts ol = true := by
        rcases h with ⟨c, hc, hacc⟩
        rcases List.mem_cons.mp hc with hcb | hcbs
        · subst hcb; exact absurd hacc hb
        · exact ⟨c, hcbs, hacc⟩
      rcases ih h' with ⟨i, hi, hprev, hacc, heq⟩
      refine ⟨i + 1, by simpa using Nat.succ_lt_succ hi, ?_, ?_, ?_⟩
      · intro j hj
        cases j with
        | zero => simpa using (Bool.not_eq_true _).mp hb
        | succ j' => simpa using hprev j' (by omega)
      · exact hacc
      · rw [anyAllocate_cons_fail (by simp_all), heq]
        rfl

/-! ### The eta sort: permutation, sortedness, stability -/

theorem sortByEta_perm (l : List Batch) : (sortByEta l).Perm l :=
  List.perm_insertionSort etaLe l

theorem sortByEta_sorted (l : List Batch) : List.Sorted etaLe (sortByEta l) :=
  List.sorted_insertionSort etaLe l

theorem filter_orderedInsert_of_not {t : Int} {b : Batch} (hb : ¬b.eta = t)
    (l : List Batch) :
    (List.orderedInsert etaLe b l).filter (fun c => decide (c.eta = t)) =
      l.filter (fun c => decide (c.eta = t)) := by
  induction l with
  | nil => simp [List.orderedInsert, hb]
  | cons c cs ih =>
    rw [List.orderedInsert]
    by_cases hbc : etaLe b c
    · rw [if_pos hbc, List.filter_cons]
      simp [hb]
    · rw [if_neg hbc, List.filter_cons, List.filter_cons, ih]

theorem filter_orderedInsert_of_eq {t : Int} {b : Batch} (hb : b.eta = t)
    {l : List Batch} (hl : List.Sorted etaLe l) :
    (List.orderedInsert etaLe b l).filter (fun c => decide (c.eta = t)) =
      b :: l.filter (fun c => decide (c.eta = t)) := by
  induction l with
  | nil => simp [List.orderedInsert, hb]
  | cons c cs ih =>
    rw [List.orderedInsert]
    by_cases hbc : etaLe b c
    · rw [if_pos hbc, List.filter_cons]
      simp [hb]
    · have hc : ¬c.eta = t := by
        unfold etaLe at hbc
        omega
      rw [if_neg hbc, List.filter_cons, if_neg (by simp [hc]),
        ih (List.Sorted.of_cons hl), List.filter_cons, if_neg (by simp [hc])]

theorem sortByEta_stable (l : List Batch) (t : Int) :
    (sortByEta l).filter (fun c => decide (c.eta = t)) =
      l.filter (fun c => decide (c.eta = t)) := by
  induction l with
  | nil => rfl
  | cons b bs ih =>
    rw [show sortByEta (b :: bs) = List.orderedInsert etaLe b (sortByEta bs) from rfl]
    by_cases hb : b.eta = t
    · rw [filter_orderedInsert_of_eq hb (sortByEta_sorted bs), ih,
        List.filter_cons, if_pos (by simp [hb])]
    · rw [filter_orderedInsert_of_not hb, List.filter_cons,
        if_neg (by simp [hb])]
      exact ih

/-! ### The batch invariant and its preservation -/

theorem Batch.new_inv (sku : String) (qty : Nat) (now : Int) :
    (Batch.new sku qty now).inv := by
  constructor
  · simp [Batch.new, Batch.allocatedQty]
  · simp [Batch.new]

theorem Batch.inv_allocate {b : Batch} (ol : OrderLine) (hinv : b.inv) :
    ((b.allocate ol).2).inv := by
  by_cases h1 : b.sku = ol.sku
  · by_cases h2 : ol ∈ b.allocated
    · rw [Batch.allocate_already h1 h2]
      exact hinv
    · by_cases h3 : ol.qty ≤ b.avaialble_qty
      · rw [Batch.allocate_success h1 h2 h3]
        unfold Batch.avaialble_qty at h3
        constructor
        · rw [Batch.allocatedQty_append]
          dsimp only
          rcases hinv with ⟨hsum, _⟩
          omega
        · dsimp only
          rcases hinv with ⟨_, hnd⟩
          simp [List.nodup_append, hnd, h2]
      · rw [Batch.allocate_insufficient h1 h2 (by omega)]
        exact hinv
  · rw [Batch.allocate_sku_mismatch h1]
    exact hinv

theorem Batch.inv_deallocate {b : Batch} (ol : OrderLine) (hinv : b.inv) :
    ((b.deallocate ol).2).inv := by
  by_cases h : ol ∈ b.allocated
  · rw [Batch.deallocate_mem h]
    rcases hinv with ⟨hsum, hnd⟩
    constructor
    · refine le_trans ?_ hsum
      unfold Batch.allocatedQty
      dsimp only
      exact List.Sublist.sum_le_sum
        (List.Sublist.map OrderLine.qty (List.erase_sublist ol b.allocated))
        (fun a _ => Nat.zero_le a)
    · exact List.Nodup.erase ol hnd
  · rw [Batch.deallocate_not_mem h]
    exact hinv

theorem runOps_inv {b : Batch} (hinv : b.inv) (ops : List BatchOp) :
    (runOps b ops).inv := by
  induction ops generalizing b with
  | nil => exact hinv
  | cons op rest ih =>
    show (runOps (applyOp b op) rest).inv
    cases op with
    | alloc ol => exact ih (Batch.inv_allocate ol hinv)
    | dealloc ol => exact ih (Batch.inv_deallocate ol hinv)

/-! ### The cross-batch policy -/

theorem allocate_all_fail {ol : OrderLine} {batches : List Batch}
    (h : ∀ b ∈ batches, b.accepts ol = false) :
    allocate ol batches =
      (Except.error "Cannot allocate order line to any batch", sortByEta batches) := by
  have h' : ∀ b ∈ sortByEta batches, b.accepts ol = false :=
    fun b hb => h b ((sortByEta_perm batches).mem_iff.mp hb)
  simp only [allocate, anyAllocate_all_fail h']
  simp

theorem allocate_exists_ok {ol : OrderLine} {batches : List Batch}
    (h : ∃ b ∈ batches, b.accepts ol = true) :
    (allocate ol batches).1 = Except.ok () := by
  have h' : ∃ b ∈ sortByEta batches, b.accepts ol = true := by
    rcases h with ⟨b, hb, hacc⟩
    exact ⟨b, (sortByEta_perm batches).mem_iff.mpr hb, hacc⟩
  obtain ⟨i, hi, _, _, heq⟩ := anyAllocate_first_success h'
  simp only [allocate]
  rw [heq]
  simp

theorem Batch.allocate_snd_eta (b : Batch) (ol : OrderLine) :
    ((b.allocate ol).2).eta = b.eta := by
  unfold Batch.allocate
  split_ifs <;> rfl

theorem set_map_eta {l : List Batch} {i : Nat} (hi : i < l.length) {x : Batch}
    (hx : x.eta = (l.get ⟨i, hi⟩).eta) :
    (l.set i x).map Batch.eta = l.map Batch.eta := by
  apply List.ext_getElem
  · simp
  · intro n h1 h2
    simp only [List.getElem_map, List.getElem_set]
    split_ifs with hin
    · subst hin
      exact hx
    · rfl

theorem sorted_set_eta {l : List Batch} (hs : List.Sorted etaLe l) {i : Nat}
    (hi : i < l.length) {x : Batch} (hx : x.eta = (l.get ⟨i, hi⟩).eta) :
    List.Sorted etaLe (l.set i x) := by
  have h1 : List.Pairwise (fun a b : Int => a ≤ b) (l.map Batch.eta) :=
    List.pairwise_map.mpr hs
  rw [← set_map_eta hi hx] at h1
  exact List.Pairwise.of_map Batch.eta (fun a b hab => hab) h1

/-! ### Claim theorems -/

/-- C1: `Batch.allocate` checks its failure conditions in source order — SKU
mismatch first, then duplicate allocation, then insufficient stock — returns
the first failure that applies with the batch unchanged, and otherwise
succeeds, appends the line to the allocation set, and decreases the available
quantity by exactly the line's quantity. -/
theorem C1_batch_allocate_cases (b : Batch) (ol : OrderLine) :
    (b.sku ≠ ol.sku →
      b.allocate ol = (Except.error "SKU do not match", b)) ∧
    (b.sku = ol.sku → ol ∈ b.allocated →
      b.allocate ol = (Except.error "Order line already allocated in this batch", b)) ∧
    (b.sku = ol.sku → ol ∉ b.allocated → b.avaialble_qty < ol.qty →
      b.allocate ol = (Except.error "Not enough quantity in batch to allocate order line", b)) ∧
    (b.sku = ol.sku → ol ∉ b.allocated → ol.qty ≤ b.avaialble_qty →
      (b.allocate ol).1 = Except.ok () ∧
      ((b.allocate ol).2).allocated = b.allocated ++ [ol] ∧
      ((b.allocate ol).2).avaialble_qty + ol.qty = b.avaialble_qty) := by
  refine ⟨fun h => Batch.allocate_sku_mismatch h,
    fun h1 h2 => Batch.allocate_already h1 h2,
    fun h1 h2 h3 => Batch.allocate_insufficient h1 h2 h3,
    fun h1 h2 h3 => ⟨?_, ?_, Batch.allocate_avail h1 h2 h3⟩⟩
  · rw [Batch.allocate_success h1 h2 h3]
  · rw [Batch.allocate_success h1 h2 h3]

/-- Witness for C1: the success case at a concrete batch and order line. -/
theorem C1_witness :
    ((Batch.new "TABLE" 10 0).sku = (OrderLine.new "TABLE" 4).sku ∧
      OrderLine.new "TABLE" 4 ∉ (Batch.new "TABLE" 10 0).allocated ∧
      (OrderLine.new "TABLE" 4).qty ≤ (Batch.new "TABLE" 10 0).avaialble_qty) ∧
    ((Batch.new "TABLE" 10 0).allocate (OrderLine.new "TABLE" 4)).1 = Except.ok () ∧
    (((Batch.new "TABLE" 10 0).allocate (OrderLine.new "TABLE" 4)).2).allocated =
      (Batch.new "TABLE" 10 0).allocated ++ [OrderLine.new "TABLE" 4] ∧
    (((Batch.new "TABLE" 10 0).allocate (OrderLine.new "TABLE" 4)).2).avaialble_qty
        + (OrderLine.new "TABLE" 4).qty = (Batch.new "TABLE" 10 0).avaialble_qty :=
  ⟨⟨by decide, by decide, by decide⟩,
    (C1_batch_allocate_cases (Batch.new "TABLE" 10 0) (OrderLine.new "TABLE" 4)).2.2.2
      (by decide) (by decide) (by decide)⟩

/-- C4: allocating a line whose quantity fits the available quantity (with
matching SKU, not already allocated) reduces `avaialble_qty` by exactly the
line's quantity, and deallocating it afterwards restores the original
available quantity. -/
theorem C4_alloc_dealloc_roundtrip (b : Batch) (ol : OrderLine)
    (h1 : b.sku = ol.sku) (h2 : ol ∉ b.allocated) (h3 : ol.qty ≤ b.avaialble_qty) :
    (b.allocate ol).1 = Except.ok () ∧
    ((b.allocate ol).2).avaialble_qty + ol.qty = b.avaialble_qty ∧
    (((b.allocate ol).2).deallocate ol).1 = Except.ok () ∧
    ((((b.allocate ol).2).deallocate ol).2).avaialble_qty = b.avaialble_qty := by
  have hsucc := Batch.allocate_success h1 h2 h3
  have herase : (b.allocated ++ [ol]).erase ol = b.allocated := by
    rw [List.erase_append_right _ h2, List.erase_cons_head]
    simp
  refine ⟨by rw [hsucc], Batch.allocate_avail h1 h2 h3, ?_, ?_⟩
  · rw [hsucc]
    dsimp only
    rw [Batch.deallocate_mem (by simp)]
  · rw [hsucc]
    dsimp only
    rw [Batch.deallocate_mem (by simp)]
    dsimp only
    rw [herase]

/-- Witness for C4 at a concrete batch and order line of quantity 7. -/
theorem C4_witness :
    ((Batch.new "CHAIR" 9 0).sku = (OrderLine.new "CHAIR" 7).sku ∧
      OrderLine.new "CHAIR" 7 ∉ (Batch.new "CHAIR" 9 0).allocated ∧
      (OrderLine.new "CHAIR" 7).qty ≤ (Batch.new "CHAIR" 9 0).avaialble_qty) ∧
    ((Batch.new "CHAIR" 9 0).allocate (OrderLine.new "CHAIR" 7)).1 = Except.ok () ∧
    (((Batch.new "CHAIR" 9 0).allocate (OrderLine.new "CHAIR" 7)).2).avaialble_qty
        + (OrderLine.new "CHAIR" 7).qty = (Batch.new "CHAIR" 9 0).avaialble_qty ∧
    ((((Batch.new "CHAIR" 9 0).allocate (OrderLine.new "CHAIR" 7)).2).deallocate
        (OrderLine.new "CHAIR" 7)).1 = Except.ok () ∧
    (((((Batch.new "CHAIR" 9 0).allocate (OrderLine.new "CHAIR" 7)).2).deallocate
        (OrderLine.new "CHAIR" 7)).2).avaialble_qty = (Batch.new "CHAIR" 9 0).avaialble_qty :=
  ⟨⟨by decide, by decide, by decide⟩,
    C4_alloc_dealloc_roundtrip (Batch.new "CHAIR" 9 0) (OrderLine.new "CHAIR" 7)
      (by decide) (by decide) (by decide)⟩

/-- C5: whenever `Batch.allocate` or `Batch.deallocate` returns an error, the
batch is left completely unchanged (allocation set, total quantity, available
quantity — the whole state). -/
theorem C5_failure_atomicity (b : Batch) (ol : OrderLine) (msg : String) :
    ((b.allocate ol).1 = Except.error msg → (b.allocate ol).2 = b) ∧
    ((b.deallocate ol).1 = Except.error msg → (b.deallocate ol).2 = b) :=
  ⟨Batch.allocate_error_snd, Batch.deallocate_error_snd⟩

/-- Witness for C5: a SKU-mismatch allocation and a not-allocated deallocation
at concrete inputs, both leaving the batch unchanged. -/
theorem C5_witness :
    ((Batch.new "A" 5 0).allocate (OrderLine.new "B" 1)).1 =
        Except.error "SKU do not match" ∧
    ((Batch.new "A" 5 0).allocate (OrderLine.new "B" 1)).2 = Batch.new "A" 5 0 ∧
    ((Batch.new "A" 5 0).deallocate (OrderLine.new "A" 1)).1 =
        Except.error "Cannot deallocate unallocated order" ∧
    ((Batch.new "A" 5 0).deallocate (OrderLine.new "A" 1)).2 = Batch.new "A" 5 0 :=
  ⟨by decide,
    (C5_failure_atomicity (Batch.new "A" 5 0) (OrderLine.new "B" 1)
      "SKU do not match").1 (by decide),
    by decide,
    (C5_failure_atomicity (Batch.new "A" 5 0) (OrderLine.new "A" 1)
      "Cannot deallocate unallocated order").2 (by decide)⟩

/-- C8 counterexample: `Batch::new` takes only (SKU, quantity); the ETA is not
supplied by the caller but taken from the ambient clock (`Local::now()`,
modelled as the `now` parameter), so two constructions from the same
caller-supplied data yield different batches when the clock differs. -/
theorem C8_counterexample :
    Batch.new "TABLE" 5 0 ≠ Batch.new "TABLE" 5 7 ∧
    (Batch.new "TABLE" 5 0).eta = 0 ∧ (Batch.new "TABLE" 5 7).eta = 7 := by
  refine ⟨?_, rfl, rfl⟩
  decide

/-- C8 amended: a `Batch` is constructed from (SKU, quantity) only, with id
`None` and ETA set to the construction-time clock; every freshly constructed
batch with total quantity Q has zero allocations and `avaialble_qty() == Q`. -/
theorem C8_amended_new (sku : String) (qty : Nat) (now : Int) :
    (Batch.new sku qty now).id = none ∧
    (Batch.new sku qty now).sku = sku ∧
    (Batch.new sku qty now).qty = qty ∧
    (Batch.new sku qty now).eta = now ∧
    (Batch.new sku qty now).allocated = [] ∧
    (Batch.new sku qty now).avaialble_qty = qty := by
  refine ⟨rfl, rfl, rfl, rfl, rfl, ?_⟩
  simp [Batch.new, Batch.avaialble_qty, Batch.allocatedQty]

/-- C9: under the invariant that the allocated quantities sum to at most the
total quantity, the unchecked subtraction in `avaialble_qty` is exact — it
agrees with the integer difference, so the `u32` underflow branch is
unreachable. -/
theorem C9_avaialble_qty_no_underflow (b : Batch) (h : b.allocatedQty ≤ b.qty) :
    (b.avaialble_qty : Int) = (b.qty : Int) - (b.allocatedQty : Int) ∧
    b.avaialble_qty + b.allocatedQty = b.qty := by
  unfold Batch.avaialble_qty
  omega

/-- Witness for C9 at a concrete batch holding one allocated line. -/
theorem C9_witness :
    sampleAllocatedBatch.allocatedQty ≤ sampleAllocatedBatch.qty ∧
    ((sampleAllocatedBatch.avaialble_qty : Int) =
        (sampleAllocatedBatch.qty : Int) - (sampleAllocatedBatch.allocatedQty : Int) ∧
      sampleAllocatedBatch.avaialble_qty + sampleAllocatedBatch.allocatedQty =
        sampleAllocatedBatch.qty) :=
  ⟨by decide, C9_avaialble_qty_no_underflow sampleAllocatedBatch (by decide)⟩

/-- C2: when some candidate accepts the line, the cross-batch policy considers
the candidates in ascending-eta order — a stable permutation of the caller's
order (equal-eta batches keep their relative order, stated via filters) — and
succeeds on the first accepting batch in that order: all earlier batches
reject the line, the result is `Ok`, and the post-state is the sorted list
with exactly that batch replaced by its allocated version (batches after it
are never attempted and all other batches are unchanged). -/
theorem C2_first_fit (ol : OrderLine) (batches : List Batch)
    (h : ∃ b ∈ batches, b.accepts ol = true) :
    List.Sorted etaLe (sortByEta batches) ∧
    (sortByEta batches).Perm batches ∧
    (∀ t : Int, (sortByEta batches).filter (fun c => decide (c.eta = t)) =
      batches.filter (fun c => decide (c.eta = t))) ∧
    ∃ i, ∃ hi : i < (sortByEta batches).length,
      (∀ j, ∀ hj : j < i,
        ((sortByEta batches).get ⟨j, Nat.lt_trans hj hi⟩).accepts ol = false) ∧
      ((sortByEta batches).get ⟨i, hi⟩).accepts ol = true ∧
      allocate ol batches =
        (Except.ok (),
          (sortByEta batches).set i
            (((sortByEta batches).get ⟨i, hi⟩).allocate ol).2) := by
  have h' : ∃ b ∈ sortByEta batches, b.accepts ol = true := by
    rcases h with ⟨b, hb, hacc⟩
    exact ⟨b, (sortByEta_perm batches).mem_iff.mpr hb, hacc⟩
  obtain ⟨i, hi, hprev, hacc, heq⟩ := anyAllocate_first_success h'
  refine ⟨sortByEta_sorted batches, sortByEta_perm batches,
    fun t => sortByEta_stable batches t, i, hi, hprev, hacc, ?_⟩
  simp only [allocate]
  rw [heq]
  simp

/-- Witness for C2 at the two-batch scenario: the in-transit batch is listed
first but the on-hand batch (earlier eta) is chosen. -/
theorem C2_witness :
    (∃ b ∈ [sampleShip, sampleStock], b.accepts sampleTableLine = true) ∧
    ∃ i, ∃ hi : i < (sortByEta [sampleShip, sampleStock]).length,
      (∀ j, ∀ hj : j < i,
        ((sortByEta [sampleShip, sampleStock]).get
          ⟨j, Nat.lt_trans hj hi⟩).accepts sampleTableLine = false) ∧
      ((sortByEta [sampleShip, sampleStock]).get ⟨i, hi⟩).accepts sampleTableLine = true ∧
      allocate sampleTableLine [sampleShip, sampleStock] =
        (Except.ok (),
          (sortByEta [sampleShip, sampleStock]).set i
            (((sortByEta [sampleShip, sampleStock]).get ⟨i, hi⟩).allocate
              sampleTableLine).2) :=
  ⟨by decide,
    (C2_first_fit sampleTableLine [sampleShip, sampleStock] (by decide)).2.2.2⟩

/-- C3: starting from a batch with no allocations, any sequence of `allocate`
and `deallocate` calls keeps the allocated sum at most the total quantity,
keeps the allocated lines pairwise distinct, and keeps the available quantity
equal to total minus allocated sum (hence never negative). -/
theorem C3_invariant_sequences (b : Batch) (h : b.allocated = []) (ops : List BatchOp) :
    (runOps b ops).allocatedQty ≤ (runOps b ops).qty ∧
    (runOps b ops).allocated.Nodup ∧
    (runOps b ops).avaialble_qty + (runOps b ops).allocatedQty = (runOps b ops).qty := by
  have hinv : b.inv := by
    constructor
    · simp [Batch.allocatedQty, h]
    · simp [h]
  obtain ⟨hsum, hnd⟩ := runOps_inv hinv ops
  refine ⟨hsum, hnd, ?_⟩
  unfold Batch.avaialble_qty
  omega

/-- Witness for C3: a concrete sequence with successful allocations, a
duplicate allocation, a SKU mismatch, an insufficient-stock attempt, and
deallocations of present and absent lines. -/
theorem C3_witness :
    sampleBatchA.allocated = [] ∧
    ((runOps sampleBatchA sampleOps).allocatedQty ≤ (runOps sampleBatchA sampleOps).qty ∧
      (runOps sampleBatchA sampleOps).allocated.Nodup ∧
      (runOps sampleBatchA sampleOps).avaialble_qty +
          (runOps sampleBatchA sampleOps).allocatedQty =
        (runOps sampleBatchA sampleOps).qty) :=
  ⟨by decide, C3_invariant_sequences sampleBatchA (by decide) sampleOps⟩

/-- C6: the cross-batch policy fails with the no-batch-available error exactly
when no candidate accepts the line, and in that case the post-state is the
eta-sorted list — every batch value (allocation set and available quantity)
unchanged, the collection merely permuted. -/
theorem C6_no_batch_available (ol : OrderLine) (batches : List Batch) :
    ((allocate ol batches).1 = Except.error "Cannot allocate order line to any batch" ↔
      ∀ b ∈ batches, b.accepts ol = false) ∧
    ((∀ b ∈ batches, b.accepts ol = false) →
      (allocate ol batches).2 = sortByEta batches ∧
      ((allocate ol batches).2).Perm batches) := by
  constructor
  · constructor
    · intro herr
      intro b hb
      cases hbv : b.accepts ol
      · rfl
      · have hok := allocate_exists_ok ⟨b, hb, hbv⟩
        rw [hok] at herr
        exact absurd herr (by simp)
    · intro hall
      rw [allocate_all_fail hall]
  · intro hall
    rw [allocate_all_fail hall]
    exact ⟨rfl, sortByEta_perm batches⟩

/-- Witness for C6: the single batch of quantity 1 cannot take the line of
quantity 2, the policy reports no batch available, and the batch is unchanged. -/
theorem C6_witness :
    (∀ b ∈ [sampleSmallBatch], b.accepts sampleBigLine = false) ∧
    (allocate sampleBigLine [sampleSmallBatch]).1 =
      Except.error "Cannot allocate order line to any batch" ∧
    (allocate sampleBigLine [sampleSmallBatch]).2 = sortByEta [sampleSmallBatch] ∧
    ((allocate sampleBigLine [sampleSmallBatch]).2).Perm [sampleSmallBatch] :=
  ⟨by decide,
    (C6_no_batch_available sampleBigLine [sampleSmallBatch]).1.mpr (by decide),
    ((C6_no_batch_available sampleBigLine [sampleSmallBatch]).2 (by decide)).1,
    ((C6_no_batch_available sampleBigLine [sampleSmallBatch]).2 (by decide)).2⟩

/-- C7 counterexample: the cross-batch policy returns the bare unit success
value.  Allocating the same line to two candidate collections whose chosen
batches carry different identifiers yields identical return values, so the
returned value carries no identifier or reference of the chosen batch. -/
theorem C7_counterexample :
    batchIdOne ≠ batchIdTwo ∧
    (allocate lampLine [batchIdOne]).1 = Except.ok () ∧
    (allocate lampLine [batchIdTwo]).1 = Except.ok () ∧
    (allocate lampLine [batchIdOne]).1 = (allocate lampLine [batchIdTwo]).1 := by
  decide

/-- C7 amended: on success the cross-batch `allocate` returns the unit success
value `Ok(())`, not the identifier or reference of the chosen batch; the
chosen batch is observable only through the mutated batch collection. -/
theorem C7_amended_unit_result (ol : OrderLine) (batches : List Batch)
    (h : ∃ b ∈ batches, b.accepts ol = true) :
    (allocate ol batches).1 = Except.ok () :=
  allocate_exists_ok h

/-- Witness for C7 at a concrete accepting batch. -/
theorem C7_witness :
    (∃ b ∈ [batchIdOne], b.accepts lampLine = true) ∧
    (allocate lampLine [batchIdOne]).1 = Except.ok () :=
  ⟨by decide, C7_amended_unit_result lampLine [batchIdOne] (by decide)⟩

/-- C10: every call to the cross-batch policy — successful or not — leaves the
caller's collection in ascending-eta order (the in-place sort is a visible
side effect), and a failing call returns exactly the stable-sorted input, with
no batch's allocation state changed. -/
theorem C10_sort_side_effect (ol : OrderLine) (batches : List Batch) :
    List.Sorted etaLe ((allocate ol batches).2) ∧
    ((allocate ol batches).1 = Except.error "Cannot allocate order line to any batch" →
      (allocate ol batches).2 = sortByEta batches) := by
  by_cases h : ∃ b ∈ batches, b.accepts ol = true
  · have h' : ∃ b ∈ sortByEta batches, b.accepts ol = true := by
      rcases h with ⟨b, hb, hacc⟩
      exact ⟨b, (sortByEta_perm batches).mem_iff.mpr hb, hacc⟩
    obtain ⟨i, hi, hprev, hacc, heq⟩ := anyAllocate_first_success h'
    have hall : allocate ol batches =
        (Except.ok (),
          (sortByEta batches).set i
            (((sortByEta batches).get ⟨i, hi⟩).allocate ol).2) := by
      simp only [allocate]
      rw [heq]
      simp
    rw [hall]
    constructor
    · exact sorted_set_eta (sortByEta_sorted batches) hi (Batch.allocate_snd_eta _ _)
    · intro herr
      exact absurd herr (by simp)
  · push_neg at h
    have hall : ∀ b ∈ batches, b.accepts ol = false := by
      intro b hb
      cases hbv : b.accepts ol
      · rfl
      · exact absurd hbv (h b hb)
    rw [allocate_all_fail hall]
    exact ⟨sortByEta_sorted batches, fun _ => rfl⟩

/-- Witness for C10: a failing call on an unsorted two-batch collection; the
post-state is the eta-sorted list, which differs from the caller's original
order. -/
theorem C10_witness :
    List.Sorted etaLe ((allocate otherLine [sampleShip, sampleStock]).2) ∧
    ((allocate otherLine [sampleShip, sampleStock]).1 =
        Except.error "Cannot allocate order line to any batch" →
      (allocate otherLine [sampleShip, sampleStock]).2 =
        sortByEta [sampleShip, sampleStock]) ∧
    (allocate otherLine [sampleShip, sampleStock]).2 ≠ [sampleShip, sampleStock] :=
  ⟨(C10_sort_side_effect otherLine [sampleShip, sampleStock]).1,
    (C10_sort_side_effect otherLine [sampleShip, sampleStock]).2,
    by decide⟩

end Cosmic
